import Mathlib

/-!
Shallow embedding of the rule execution engine of
`src/src-tauri/src/main.rs` — the `organize_files` Tauri command
(lines 38-123) — together with the data model it operates on.

Modelling choices:
* The filesystem is a concrete state `FS`: a set of directories plus a map
  from file locations `(folder, name)` to abstract contents (`Nat`), plus
  the non-regular children (subdirectories etc.) of each folder.
* Filesystem primitives (`fs::create_dir_all`, `fs::read_dir`, iterator
  entry reads, `DirEntry::file_type`, `fs::copy`, `fs::remove_file`) can
  also fail for environmental reasons (permissions, devices); a `Faults`
  oracle assigns each primitive call an optional error message, mirroring
  the `Result` values the Rust standard library returns.
* The regex engine is the external `regex` crate; the embedding is
  parameterised by a fallible compiler
  `compile : String → Except String (String → Bool)` mirroring
  `Regex::new` followed by `Regex::is_match` on the file name.
* The diagnostic log file is only opened under `#[cfg(debug_assertions)]`
  and every write to it discards its result (`.ok()`), so it affects
  neither the returned results nor the filesystem; the embedding models
  the release build, which has no log sink (lines 50-51).
* The Rust function pushes formatted strings into `results`; each of the
  five distinct `results.push(format!(..))` sites is rendered as a
  constructor of `Outcome` so statements can count and classify outcomes.
-/

/-- A file location: the containing folder and the file name.
`dest_path.join(&file_name)` (main.rs line 88) and `entry.path()`
(line 87) both construct such a pair. -/
abbrev Loc := String × String

/-- `OrganizeRule` (main.rs lines 14-20). -/
structure OrganizeRule where
  name : String
  source_folder : String
  pattern : String
  destination_folder : String
deriving DecidableEq, Repr

/-- `Config` (main.rs lines 22-25). -/
structure Config where
  rules : List OrganizeRule
deriving DecidableEq, Repr

/-- One element of the `results` vector of `organize_files`, with each
`results.push(format!(..))` site rendered as a constructor:
`warning` = line 60, `moveOk` = line 94, `removeFailed` = line 100,
`copyFailed` = line 108, `ruleSummary` = line 117. -/
inductive Outcome where
  | warning (sourceFolder : String)
  | moveOk (src dst : Loc)
  | removeFailed (src : Loc) (err : String)
  | copyFailed (src : Loc) (err : String)
  | ruleSummary (ruleName : String) (movedCount : Nat)
deriving DecidableEq, Repr

/-- A directory entry as seen by `fs::read_dir`: the file name and
whether `file_type().is_file()` holds (main.rs lines 78-81). -/
structure Entry where
  fname : String
  regular : Bool
deriving DecidableEq, Repr

/-- Filesystem state: existing directories, regular files with abstract
contents, and non-regular entries. -/
structure FS where
  dirs : List String
  files : List (Loc × Nat)
  others : List Loc
deriving DecidableEq, Repr

/-- Environmental failure oracle for the filesystem primitives: `some e`
means the corresponding call fails with message `e`. `renameErr` is used
only by the spec-modelled direct-move strategy (spec 4.3); the code never
renames. -/
structure Faults where
  createDirErr : String → Option String
  readDirErr : String → Option String
  entryErr : String → String → Option String
  ftypeErr : String → String → Option String
  copyErr : Loc → Loc → Option String
  removeErr : Loc → Option String
  renameErr : Loc → Loc → Option String

/-- The oracle under which every filesystem primitive succeeds. -/
def noFaults : Faults :=
  ⟨fun _ => none, fun _ => none, fun _ _ => none, fun _ _ => none,
   fun _ _ => none, fun _ => none, fun _ _ => none⟩

/-- `Path::exists` at folder granularity (main.rs lines 59 and 67). -/
def FS.pathExists (fs : FS) (p : String) : Bool :=
  fs.dirs.contains p

/-- `fs::create_dir_all` (main.rs line 68). -/
def FS.createDirAll (flt : Faults) (fs : FS) (p : String) : Except String FS :=
  match flt.createDirErr p with
  | some e => .error e
  | none => .ok { fs with dirs := p :: fs.dirs }

/-- The directory entries `fs::read_dir` yields for `folder`: its regular
files followed by its non-regular children. -/
def FS.entriesOf (fs : FS) (folder : String) : List Entry :=
  (fs.files.filter (fun f => f.1.1 == folder)).map (fun f => ⟨f.1.2, true⟩)
    ++ (fs.others.filter (fun l => l.1 == folder)).map (fun l => ⟨l.2, false⟩)

/-- `fs::copy` (main.rs line 89): overwrites `dst` with the contents of
`src`; fails if the oracle says so or if `src` does not exist. -/
def FS.copyFile (flt : Faults) (fs : FS) (src dst : Loc) : Except String FS :=
  match flt.copyErr src dst with
  | some e => .error e
  | none =>
    match fs.files.lookup src with
    | none => .error "copy: source file not found"
    | some c => .ok { fs with files := (dst, c) :: fs.files.filter (fun f => f.1 != dst) }

/-- `fs::remove_file` (main.rs line 91). -/
def FS.removeFile (flt : Faults) (fs : FS) (src : Loc) : Except String FS :=
  match flt.removeErr src with
  | some e => .error e
  | none =>
    match fs.files.lookup src with
    | none => .error "remove: file not found"
    | some _ => .ok { fs with files := fs.files.filter (fun f => f.1 != src) }

/-- The copy-then-delete relocation block of main.rs lines 89-113: copy
the file, then delete the source; the caller increments `moved_count`
only in the fully successful branch. -/
def relocateStep (flt : Faults) (fs : FS) (src dst : Loc) : FS × Outcome :=
  match fs.copyFile flt src dst with
  | .error e2 => (fs, .copyFailed src e2)
  | .ok fs1 =>
    match fs1.removeFile flt src with
    | .ok fs2 => (fs2, .moveOk src dst)
    | .error e2 => (fs1, .removeFailed src e2)

/-- The per-entry test of main.rs lines 80-86: the entry is a regular
file and the compiled pattern matches its name. -/
def ruleMatches (m : String → Bool) (e : Entry) : Bool :=
  e.regular && m e.fname

/-- Whether an outcome is the fully successful move record (line 94). -/
def isMoveOk : Outcome → Bool
  | .moveOk _ _ => true
  | _ => false

/-- Whether an outcome is a `FileAction` in the sense of the spec data
model: one record per relocation attempt (lines 94, 100, 108). -/
def isFileAction : Outcome → Bool
  | .moveOk _ _ => true
  | .removeFailed _ _ => true
  | .copyFailed _ _ => true
  | _ => false

/-- Whether an outcome is the missing-source-folder warning (line 60). -/
def isWarning : Outcome → Bool
  | .warning _ => true
  | _ => false

/-- The source location a `FileAction` outcome refers to. -/
def actionSrc : Outcome → Option Loc
  | .moveOk s _ => some s
  | .removeFailed s _ => some s
  | .copyFailed s _ => some s
  | _ => none

/-- The `for entry in entries` loop of main.rs lines 76-116: `mv` is
`moved_count`, `acc` the results gathered so far. Entry-read and
file-type failures abort the whole computation with `.error` (the `?`
operator on lines 77 and 80). -/
def processEntries (flt : Faults) (m : String → Bool) (srcF dstF : String) :
    List Entry → FS → Nat → List Outcome → Except String (FS × Nat × List Outcome)
  | [], fs, mv, acc => .ok (fs, mv, acc)
  | e :: rest, fs, mv, acc =>
    match flt.entryErr srcF e.fname with
    | some msg => .error msg
    | none =>
      match flt.ftypeErr srcF e.fname with
      | some msg => .error msg
      | none =>
        if ruleMatches m e then
          let step := relocateStep flt fs (srcF, e.fname) (dstF, e.fname)
          processEntries flt m srcF dstF rest step.1
            (if isMoveOk step.2 then mv + 1 else mv) (acc ++ [step.2])
        else
          processEntries flt m srcF dstF rest fs mv acc

/-- One iteration of the `for rule in config.rules` loop, main.rs lines
53-120: warn and skip if the source folder is missing (59-65), create the
destination if absent (67-70, fatal on failure), compile the pattern
(71-72, fatal on failure), enumerate the source folder (73-74, fatal on
failure), run the entry loop, then append the rule summary (117). -/
def runRule (flt : Faults) (compile : String → Except String (String → Bool))
    (r : OrganizeRule) (fs : FS) : Except String (FS × List Outcome) :=
  if fs.pathExists r.source_folder = false then
    .ok (fs, [.warning r.source_folder])
  else
    match (if fs.pathExists r.destination_folder then .ok fs
           else fs.createDirAll flt r.destination_folder) with
    | .error e => .error e
    | .ok fs1 =>
      match compile r.pattern with
      | .error e => .error e
      | .ok m =>
        match flt.readDirErr r.source_folder with
        | some e => .error e
        | none =>
          match processEntries flt m r.source_folder r.destination_folder
              (fs1.entriesOf r.source_folder) fs1 0 [] with
          | .error e => .error e
          | .ok (fs2, mv, acts) => .ok (fs2, acts ++ [.ruleSummary r.name mv])

/-- The `for rule in config.rules` loop itself: rules run in order, each
rule's outcomes are appended to `acc`, and a rule-level `.error`
(from the `?` operator inside the loop body) aborts the whole run. -/
def runRules (flt : Faults) (compile : String → Except String (String → Bool)) :
    List OrganizeRule → FS → List Outcome → Except String (FS × List Outcome)
  | [], fs, acc => .ok (fs, acc)
  | r :: rs, fs, acc =>
    match runRule flt compile r fs with
    | .error e => .error e
    | .ok (fs1, outs) => runRules flt compile rs fs1 (acc ++ outs)

/-- `organize_files` (main.rs lines 38-123) after config loading: the
returned value is the final filesystem plus the `results` vector, or the
first fatal error. -/
def organize_files (flt : Faults) (compile : String → Except String (String → Bool))
    (cfg : Config) (fs : FS) : Except String (FS × List Outcome) :=
  runRules flt compile cfg.rules fs []

deriving instance DecidableEq for Except

/-- Unanchored search for `p` as a contiguous run inside the second list:
true iff some suffix of the haystack starts with `p`. -/
def litSearch (p : List Char) : List Char → Bool
  | [] => p.isEmpty
  | c :: rest => p.isPrefixOf (c :: rest) || litSearch p rest

/-- Modelled from the `regex` crate's documented semantics of
`Regex::is_match` on a metacharacter-free pattern: an unanchored search,
true iff the pattern occurs as a substring of the haystack. Used to
instantiate the engine's `compile` parameter on concrete inputs. -/
def litIsMatch (pat s : String) : Bool :=
  litSearch pat.data s.data

/-- Modelled from `Regex::new` restricted to metacharacter-free patterns
plus one representative ill-formed pattern: `"("` fails to compile
(unclosed group), anything else compiles to the unanchored substring
matcher `litIsMatch`. -/
def litCompile (pat : String) : Except String (String → Bool) :=
  if pat = "(" then .error "regex parse error: unclosed group"
  else .ok (litIsMatch pat)

/-- Modelled from the spec (4.3): the policy input selecting between the
two relocation strategies. -/
inductive Policy where
  | directMove
  | copyThenDelete
deriving DecidableEq, Repr

/-- Modelled from the spec (4.3, "Direct move: single atomic rename"): a
rename-based move. Absent from the code, which never calls `fs::rename`. -/
def FS.renameFile (flt : Faults) (fs : FS) (src dst : Loc) : Except String FS :=
  match flt.renameErr src dst with
  | some e => .error e
  | none =>
    match fs.files.lookup src with
    | none => .error "rename: source file not found"
    | some c =>
      .ok { fs with files := (dst, c) :: fs.files.filter (fun f => f.1 != src && f.1 != dst) }

/-- Modelled from the spec (4.3): `relocate(sourceFile, destFile)` under a
chosen policy; the generic `Failure(reason)` record is rendered with the
`Outcome.copyFailed` constructor. -/
def relocateSpec (pol : Policy) (flt : Faults) (fs : FS) (src dst : Loc) : FS × Outcome :=
  match pol with
  | .copyThenDelete => relocateStep flt fs src dst
  | .directMove =>
    match fs.renameFile flt src dst with
    | .ok fs1 => (fs1, .moveOk src dst)
    | .error e => (fs, .copyFailed src e)

/-- Modelled from the spec (4.3-4.4): the entry loop with the relocation
strategy chosen by a policy input instead of being hard-coded. -/
def processEntriesP (pol : Policy) (flt : Faults) (m : String → Bool) (srcF dstF : String) :
    List Entry → FS → Nat → List Outcome → Except String (FS × Nat × List Outcome)
  | [], fs, mv, acc => .ok (fs, mv, acc)
  | e :: rest, fs, mv, acc =>
    match flt.entryErr srcF e.fname with
    | some msg => .error msg
    | none =>
      match flt.ftypeErr srcF e.fname with
      | some msg => .error msg
      | none =>
        if ruleMatches m e then
          let step := relocateSpec pol flt fs (srcF, e.fname) (dstF, e.fname)
          processEntriesP pol flt m srcF dstF rest step.1
            (if isMoveOk step.2 then mv + 1 else mv) (acc ++ [step.2])
        else
          processEntriesP pol flt m srcF dstF rest fs mv acc

/-- Modelled from the spec (4.4): one rule under a chosen policy. -/
def runRuleP (pol : Policy) (flt : Faults) (compile : String → Except String (String → Bool))
    (r : OrganizeRule) (fs : FS) : Except String (FS × List Outcome) :=
  if fs.pathExists r.source_folder = false then
    .ok (fs, [.warning r.source_folder])
  else
    match (if fs.pathExists r.destination_folder then .ok fs
           else fs.createDirAll flt r.destination_folder) with
    | .error e => .error e
    | .ok fs1 =>
      match compile r.pattern with
      | .error e => .error e
      | .ok m =>
        match flt.readDirErr r.source_folder with
        | some e => .error e
        | none =>
          match processEntriesP pol flt m r.source_folder r.destination_folder
              (fs1.entriesOf r.source_folder) fs1 0 [] with
          | .error e => .error e
          | .ok (fs2, mv, acts) => .ok (fs2, acts ++ [.ruleSummary r.name mv])

/-- Modelled from the spec (4.5): the rule loop under a chosen policy. -/
def runRulesP (pol : Policy) (flt : Faults) (compile : String → Except String (String → Bool)) :
    List OrganizeRule → FS → List Outcome → Except String (FS × List Outcome)
  | [], fs, acc => .ok (fs, acc)
  | r :: rs, fs, acc =>
    match runRuleP pol flt compile r fs with
    | .error e => .error e
    | .ok (fs1, outs) => runRulesP pol flt compile rs fs1 (acc ++ outs)

/-- Modelled from the spec (4.3, 4.5): the whole engine, parameterised by
the relocation policy "a global mode, not per-rule". -/
def organizeWithPolicy (pol : Policy) (flt : Faults)
    (compile : String → Except String (String → Bool))
    (cfg : Config) (fs : FS) : Except String (FS × List Outcome) :=
  runRulesP pol flt compile cfg.rules fs []

/-- A folder `in` holding `a.pdf` and `b.txt`, and an empty folder `out`. -/
def fsA : FS := ⟨["in", "out"], [(("in", "a.pdf"), 7), (("in", "b.txt"), 8)], []⟩

/-- A rule moving pdf files from `in` to `out`. -/
def ruleA : OrganizeRule := ⟨"pdfs", "in", ".pdf", "out"⟩

/-- A rule whose pattern does not compile. -/
def ruleBad : OrganizeRule := ⟨"broken", "in", "(", "out"⟩

/-- An oracle making every `fs::copy` fail (e.g. a cross-device setup in
which only a rename would be ruled out; here it is the copy that fails). -/
def xdevFaults : Faults :=
  { noFaults with copyErr := fun _ _ => some "cross-device link" }

/-- An oracle making `fs::create_dir_all` fail on the folder `out2`. -/
def cdFaults : Faults :=
  { noFaults with createDirErr := fun p =>
      if p = "out2" then some "permission denied" else none }

/-- An oracle making every `fs::remove_file` fail. -/
def rmFaults : Faults :=
  { noFaults with removeErr := fun _ => some "access denied" }

/-- A source file `a.pdf` plus a destination file of the same name with
different contents, exhibiting the overwrite on collision. -/
def fsB : FS := ⟨["in", "out"], [(("in", "a.pdf"), 7), (("out", "a.pdf"), 9)], []⟩

/-- An oracle making the copy of `a.pdf` out of `in` fail, everything
else succeeding. -/
def c5Faults : Faults :=
  { noFaults with copyErr := fun s _ =>
      if s = ("in", "a.pdf") then some "permission denied" else none }

/-- An oracle making `fs::read_dir` fail on the folder `in`. -/
def rdFaults : Faults :=
  { noFaults with readDirErr := fun p =>
      if p = "in" then some "read denied" else none }

/-- An oracle making the directory-entry read of `b.txt` fail. -/
def enFaults : Faults :=
  { noFaults with entryErr := fun p n =>
      if p = "in" && n = "b.txt" then some "entry lost" else none }

/-- An oracle making the file-type query of `b.txt` fail. -/
def ftFaults : Faults :=
  { noFaults with ftypeErr := fun p n =>
      if p = "in" && n = "b.txt" then some "ftype lost" else none }

lemma processEntriesP_copyThenDelete (flt : Faults) (m : String → Bool) (srcF dstF : String) :
    ∀ (es : List Entry) (fs : FS) (mv : Nat) (acc : List Outcome),
      processEntriesP .copyThenDelete flt m srcF dstF es fs mv acc =
        processEntries flt m srcF dstF es fs mv acc := by
  intro es
  induction es with
  | nil => intro fs mv acc; rfl
  | cons e rest ih =>
    intro fs mv acc
    simp only [processEntriesP, processEntries, relocateSpec]
    cases flt.entryErr srcF e.fname with
    | some msg => rfl
    | none =>
      cases flt.ftypeErr srcF e.fname with
      | some msg => rfl
      | none =>
        by_cases h : ruleMatches m e = true
        · simp only [h, if_true, ih]
        · simp only [Bool.not_eq_true] at h
          simp only [h, Bool.false_eq_true, if_false, ih]

lemma runRuleP_copyThenDelete (flt : Faults) (compile : String → Except String (String → Bool))
    (r : OrganizeRule) (fs : FS) :
    runRuleP .copyThenDelete flt compile r fs = runRule flt compile r fs := by
  simp only [runRuleP, runRule, processEntriesP_copyThenDelete]

lemma runRulesP_copyThenDelete (flt : Faults) (compile : String → Except String (String → Bool)) :
    ∀ (rs : List OrganizeRule) (fs : FS) (acc : List Outcome),
      runRulesP .copyThenDelete flt compile rs fs acc = runRules flt compile rs fs acc := by
  intro rs
  induction rs with
  | nil => intro fs acc; rfl
  | cons r rest ih =>
    intro fs acc
    simp only [runRulesP, runRules, runRuleP_copyThenDelete]
    cases runRule flt compile r fs with
    | error e => rfl
    | ok p => exact ih p.1 (acc ++ p.2)

lemma relocateStep_shape (flt : Faults) (fs : FS) (src dst : Loc) :
    actionSrc (relocateStep flt fs src dst).2 = some src ∧
    isFileAction (relocateStep flt fs src dst).2 = true ∧
    (∀ s d, (relocateStep flt fs src dst).2 = Outcome.moveOk s d → s = src ∧ d = dst) := by
  cases hc : fs.copyFile flt src dst with
  | error e => simp [relocateStep, hc, actionSrc, isFileAction]
  | ok fs1 =>
    cases hr : fs1.removeFile flt src with
    | ok fs2 => simp [relocateStep, hc, hr, actionSrc, isFileAction]
    | error e2 => simp [relocateStep, hc, hr, actionSrc, isFileAction]

lemma processEntries_ok_spec (flt : Faults) (m : String → Bool) (srcF dstF : String) :
    ∀ (es : List Entry) (fs : FS) (mv : Nat) (acc : List Outcome)
      (fs2 : FS) (mv2 : Nat) (outs : List Outcome),
      processEntries flt m srcF dstF es fs mv acc = .ok (fs2, mv2, outs) →
      ∃ acts, outs = acc ++ acts ∧
        acts.filterMap actionSrc =
          (es.filter (ruleMatches m)).map (fun e => (srcF, e.fname)) ∧
        (∀ a ∈ acts, isFileAction a = true) ∧
        (∀ s d, Outcome.moveOk s d ∈ acts → s = (srcF, s.2) ∧ d = (dstF, s.2)) ∧
        mv2 = mv + (acts.filter isMoveOk).length := by
  intro es
  induction es with
  | nil =>
    intro fs mv acc fs2 mv2 outs h
    simp only [processEntries, Except.ok.injEq, Prod.mk.injEq] at h
    obtain ⟨rfl, rfl, rfl⟩ := h
    exact ⟨[], by simp⟩
  | cons e rest ih =>
    intro fs mv acc fs2 mv2 outs h
    simp only [processEntries] at h
    split at h
    · exact absurd h (by simp)
    · split at h
      · exact absurd h (by simp)
      · split at h
        case isTrue hm =>
          obtain ⟨acts1, houts, hsrcs, hfa, hmk, hmv⟩ := ih _ _ _ _ _ _ h
          obtain ⟨hstep1, hstep2, hstep3⟩ :=
            relocateStep_shape flt fs (srcF, e.fname) (dstF, e.fname)
          refine ⟨(relocateStep flt fs (srcF, e.fname) (dstF, e.fname)).2 :: acts1,
            ?_, ?_, ?_, ?_, ?_⟩
          · simpa [List.append_assoc] using houts
          · simp only [List.filterMap_cons, hstep1, List.filter_cons, hm, if_true,
              List.map_cons, hsrcs]
          · intro a ha
            rcases List.mem_cons.mp ha with rfl | ha1
            · exact hstep2
            · exact hfa a ha1
          · intro s d hd
            rcases List.mem_cons.mp hd with heq | hd1
            · obtain ⟨hs, hdd⟩ := hstep3 s d heq.symm
              subst hs; subst hdd; exact ⟨rfl, rfl⟩
            · exact hmk s d hd1
          · rw [hmv, List.filter_cons]
            cases hmo : isMoveOk (relocateStep flt fs (srcF, e.fname) (dstF, e.fname)).2 with
            | true => simp [hmo]; omega
            | false => simp [hmo]
        case isFalse hm =>
          obtain ⟨acts1, houts, hsrcs, hfa, hmk, hmv⟩ := ih _ _ _ _ _ _ h
          refine ⟨acts1, houts, ?_, hfa, hmk, hmv⟩
          rw [List.filter_cons, if_neg (by simpa using hm)]
          exact hsrcs

lemma processEntries_append (flt : Faults) (m : String → Bool) (srcF dstF : String) :
    ∀ (xs ys : List Entry) (fs : FS) (mv : Nat) (acc : List Outcome),
      processEntries flt m srcF dstF (xs ++ ys) fs mv acc =
        match processEntries flt m srcF dstF xs fs mv acc with
        | .error e => .error e
        | .ok (fs1, mv1, acc1) => processEntries flt m srcF dstF ys fs1 mv1 acc1 := by
  intro xs
  induction xs with
  | nil => intro ys fs mv acc; rfl
  | cons x rest ih =>
    intro ys fs mv acc
    simp only [List.cons_append, processEntries]
    cases flt.entryErr srcF x.fname with
    | some msg => rfl
    | none =>
      cases flt.ftypeErr srcF x.fname with
      | some msg => rfl
      | none =>
        by_cases hm : ruleMatches m x = true
        · simp only [hm, if_true]
          exact ih ys _ _ _
        · simp only [Bool.not_eq_true] at hm
          simp only [hm, Bool.false_eq_true, if_false]
          exact ih ys fs mv acc

lemma runRule_ok_inv (flt : Faults) (compile : String → Except String (String → Bool))
    (r : OrganizeRule) (fs fs2 : FS) (outs : List Outcome)
    (hsrc : fs.pathExists r.source_folder = true)
    (h : runRule flt compile r fs = .ok (fs2, outs)) :
    ∃ fs1 m mv acts,
      compile r.pattern = .ok m ∧
      fs1.files = fs.files ∧ fs1.others = fs.others ∧
      processEntries flt m r.source_folder r.destination_folder
        (fs1.entriesOf r.source_folder) fs1 0 [] = .ok (fs2, mv, acts) ∧
      outs = acts ++ [.ruleSummary r.name mv] := by
  rw [runRule, if_neg (by simp [hsrc])] at h
  split at h
  · exact absurd h (by simp)
  case h_2 fs1 heq =>
    have hfs1 : fs1.files = fs.files ∧ fs1.others = fs.others := by
      split at heq
      · cases heq; exact ⟨rfl, rfl⟩
      · rw [FS.createDirAll] at heq
        split at heq
        · exact absurd heq (by simp)
        · cases heq; exact ⟨rfl, rfl⟩
    split at h
    · exact absurd h (by simp)
    case h_2 m hm =>
      split at h
      · exact absurd h (by simp)
      · split at h
        · exact absurd h (by simp)
        case h_2 fs3 mv acts heq2 =>
          simp only [Except.ok.injEq, Prod.mk.injEq] at h
          obtain ⟨rfl, rfl⟩ := h
          exact ⟨fs1, m, mv, acts, hm, hfs1.1, hfs1.2, heq2, rfl⟩

lemma entriesOf_congr (fs1 fs : FS) (h1 : fs1.files = fs.files)
    (h2 : fs1.others = fs.others) (p : String) :
    fs1.entriesOf p = fs.entriesOf p := by
  rw [FS.entriesOf, FS.entriesOf, h1, h2]

lemma filterMap_actionSrc_length (acts : List Outcome)
    (h : ∀ a ∈ acts, isFileAction a = true) :
    (acts.filterMap actionSrc).length = acts.length := by
  induction acts with
  | nil => rfl
  | cons a rest ih =>
    have ha := h a (List.mem_cons_self a rest)
    have hsome : ∃ s, actionSrc a = some s := by
      cases a <;> simp_all [isFileAction, actionSrc]
    obtain ⟨s, hs⟩ := hsome
    simp [List.filterMap_cons, hs, ih (fun b hb => h b (List.mem_cons_of_mem a hb))]

lemma lookup_filter_ne (src dst : Loc) (h : src ≠ dst) :
    ∀ l : List (Loc × Nat),
      (l.filter (fun f => f.1 != dst)).lookup src = l.lookup src := by
  intro l
  induction l with
  | nil => rfl
  | cons p rest ih =>
    by_cases hp : p.1 = dst
    · have hb : (p.1 != dst) = false := by simp [hp]
      have hs : (src == p.1) = false := by
        rw [hp, beq_eq_false_iff_ne]
        exact h
      rw [List.filter_cons, hb]
      simp only [Bool.false_eq_true, if_false, ih, List.lookup, hs]
    · have hb : (p.1 != dst) = true := by simp [hp]
      rw [List.filter_cons, hb, if_pos rfl]
      cases hs : (src == p.1) with
      | true => simp [List.lookup, hs]
      | false => simp [List.lookup, hs, ih]

/-- C1 counterexample: the claim says a rule whose pattern does not
compile aborts only that rule and the run returns no error; but on a
config whose first rule has the ill-formed pattern `"("` followed by a
well-formed rule, `organize_files` returns an error (the `?` on main.rs
line 72), so the run does error and the second rule never executes. -/
theorem c1_counterexample :
    organize_files noFaults litCompile ⟨[ruleBad, ruleA]⟩ fsA =
      .error "regex parse error: unclosed group" := by
  decide

/-- C1 (amended): a failure while setting up a rule (the pattern fails to
compile, or creating the destination folder fails) aborts the entire run:
`organize_files` returns that error, and no subsequent rule of the
configuration is executed (main.rs lines 67-72, `?` operator). -/
theorem c1_setup_failure_aborts_run (flt : Faults)
    (compile : String → Except String (String → Bool))
    (r : OrganizeRule) (rs : List OrganizeRule) (fs : FS) (e : String)
    (hsrc : fs.pathExists r.source_folder = true) :
    (fs.pathExists r.destination_folder = true → compile r.pattern = .error e →
      organize_files flt compile ⟨r :: rs⟩ fs = .error e) ∧
    (fs.pathExists r.destination_folder = false →
      flt.createDirErr r.destination_folder = some e →
      organize_files flt compile ⟨r :: rs⟩ fs = .error e) := by
  constructor
  · intro hdst hcomp
    have hr : runRule flt compile r fs = .error e := by
      simp [runRule, hsrc, hdst, hcomp]
    simp [organize_files, runRules, hr]
  · intro hdst hcd
    have hr : runRule flt compile r fs = .error e := by
      simp [runRule, hsrc, hdst, FS.createDirAll, hcd]
    simp [organize_files, runRules, hr]

/-- C1 witness: concrete instances of both setup failures. -/
theorem c1_setup_failure_aborts_run_witness :
    organize_files noFaults litCompile ⟨[ruleBad, ruleA]⟩ fsA =
      .error "regex parse error: unclosed group" ∧
    organize_files cdFaults litCompile ⟨[⟨"pdfs2", "in", ".pdf", "out2"⟩, ruleA]⟩ fsA =
      .error "permission denied" := by
  constructor
  · exact (c1_setup_failure_aborts_run noFaults litCompile ruleBad [ruleA] fsA
      "regex parse error: unclosed group" (by decide)).1 (by decide) (by rfl)
  · exact (c1_setup_failure_aborts_run cdFaults litCompile ⟨"pdfs2", "in", ".pdf", "out2"⟩
      [ruleA] fsA "permission denied" (by decide)).2 (by decide) (by rfl)

/-- C2 counterexample: on a filesystem setup in which every `fs::copy`
fails but a rename would succeed, the engine's behaviour differs from
the spec's direct-move strategy — the file stays and a failure is
recorded — because the code hard-codes copy-then-delete; no input to
`organize_files` selects the direct-move policy. -/
theorem c2_counterexample :
    organize_files xdevFaults litCompile ⟨[ruleA]⟩ fsA ≠
      organizeWithPolicy .directMove xdevFaults litCompile ⟨[ruleA]⟩ fsA := by
  decide

/-- C2 (amended): the relocation policy is hard-coded rather than
configurable: on every input, `organize_files` behaves exactly as the
spec's policy-parameterised engine fixed at copy-then-delete. -/
theorem c2_policy_is_hardcoded_copy_then_delete (flt : Faults)
    (compile : String → Except String (String → Bool)) (cfg : Config) (fs : FS) :
    organize_files flt compile cfg fs =
      organizeWithPolicy .copyThenDelete flt compile cfg fs := by
  rw [organize_files, organizeWithPolicy, runRulesP_copyThenDelete]

/-- C3: if a rule's source folder exists and its whole execution succeeds
(`runRule` returns ok), then the rule's file actions are in one-to-one,
order-preserving correspondence with the regular entries of the source
folder whose names the compiled pattern matches, and the trailing rule
summary records exactly the number of fully successful moves. -/
theorem c3_one_action_per_match_and_exact_count (flt : Faults)
    (compile : String → Except String (String → Bool))
    (r : OrganizeRule) (fs fs2 : FS) (outs : List Outcome)
    (hsrc : fs.pathExists r.source_folder = true)
    (h : runRule flt compile r fs = .ok (fs2, outs)) :
    ∃ m, compile r.pattern = .ok m ∧
      outs.filterMap actionSrc =
        ((fs.entriesOf r.source_folder).filter (ruleMatches m)).map
          (fun e => (r.source_folder, e.fname)) ∧
      (outs.filter isFileAction).length =
        ((fs.entriesOf r.source_folder).filter (ruleMatches m)).length ∧
      outs.getLast? = some (.ruleSummary r.name ((outs.filter isMoveOk).length)) := by
  obtain ⟨fs1, m, mv, acts, hcomp, hf, ho, hpe, houts⟩ :=
    runRule_ok_inv flt compile r fs fs2 outs hsrc h
  rw [entriesOf_congr fs1 fs hf ho] at hpe
  obtain ⟨acts2, hacts2, hsrcs, hfa, hmk, hmv⟩ :=
    processEntries_ok_spec flt m _ _ _ _ _ _ _ _ _ hpe
  have hae : acts = acts2 := by simpa using hacts2
  subst hae
  subst houts
  have hfilter : (acts ++ [Outcome.ruleSummary r.name mv]).filter isFileAction = acts := by
    rw [List.filter_append, List.filter_eq_self.mpr hfa]
    simp [isFileAction]
  have hmo : (acts ++ [Outcome.ruleSummary r.name mv]).filter isMoveOk =
      acts.filter isMoveOk := by
    rw [List.filter_append]
    simp [isMoveOk]
  refine ⟨m, hcomp, ?_, ?_, ?_⟩
  · rw [List.filterMap_append]
    simpa [actionSrc] using hsrcs
  · rw [hfilter, ← filterMap_actionSrc_length acts hfa, hsrcs, List.length_map]
  · rw [List.getLast?_concat, hmo, hmv]
    simp

/-- C3 witness: the concrete run of `ruleA` over `fsA`: `a.pdf` is the
single match, one successful file action, summary count 1. -/
theorem c3_one_action_per_match_and_exact_count_witness :
    ∃ m, litCompile ruleA.pattern = .ok m ∧
      ([Outcome.moveOk ("in", "a.pdf") ("out", "a.pdf"),
          Outcome.ruleSummary "pdfs" 1].filterMap actionSrc) =
        ((fsA.entriesOf ruleA.source_folder).filter (ruleMatches m)).map
          (fun e => (ruleA.source_folder, e.fname)) ∧
      (([Outcome.moveOk ("in", "a.pdf") ("out", "a.pdf"),
          Outcome.ruleSummary "pdfs" 1].filter isFileAction).length =
        ((fsA.entriesOf ruleA.source_folder).filter (ruleMatches m)).length) ∧
      ([Outcome.moveOk ("in", "a.pdf") ("out", "a.pdf"),
          Outcome.ruleSummary "pdfs" 1].getLast? =
        some (.ruleSummary "pdfs"
          (([Outcome.moveOk ("in", "a.pdf") ("out", "a.pdf"),
              Outcome.ruleSummary "pdfs" 1].filter isMoveOk).length))) :=
  c3_one_action_per_match_and_exact_count noFaults litCompile ruleA fsA
    ⟨["in", "out"], [(("out", "a.pdf"), 7), (("in", "b.txt"), 8)], []⟩
    [Outcome.moveOk ("in", "a.pdf") ("out", "a.pdf"), Outcome.ruleSummary "pdfs" 1]
    (by decide) (by decide)

/-- C4: a rule whose source folder does not exist yields exactly one
warning and zero file actions (main.rs lines 59-65), and the run
continues with the remaining rules from the same filesystem state. -/
theorem c4_missing_source_warns_and_continues (flt : Faults)
    (compile : String → Except String (String → Bool))
    (r : OrganizeRule) (rs : List OrganizeRule) (fs : FS) (acc : List Outcome)
    (h : fs.pathExists r.source_folder = false) :
    runRule flt compile r fs = .ok (fs, [.warning r.source_folder]) ∧
    ([Outcome.warning r.source_folder].filter isWarning).length = 1 ∧
    ([Outcome.warning r.source_folder].filter isFileAction).length = 0 ∧
    runRules flt compile (r :: rs) fs acc =
      runRules flt compile rs fs (acc ++ [.warning r.source_folder]) := by
  have hr : runRule flt compile r fs = .ok (fs, [.warning r.source_folder]) := by
    rw [runRule, if_pos h]
  exact ⟨hr, by simp [isWarning], by simp [isFileAction], by rw [runRules, hr]⟩

/-- C4 witness: a concrete two-rule run in which the first rule's source
folder `nosuch` is missing; the second rule still executes. -/
theorem c4_missing_source_warns_and_continues_witness :
    runRule noFaults litCompile ⟨"r0", "nosuch", ".pdf", "out"⟩ fsA =
      .ok (fsA, [.warning "nosuch"]) ∧
    ([Outcome.warning "nosuch"].filter isWarning).length = 1 ∧
    ([Outcome.warning "nosuch"].filter isFileAction).length = 0 ∧
    runRules noFaults litCompile [⟨"r0", "nosuch", ".pdf", "out"⟩, ruleA] fsA [] =
      runRules noFaults litCompile [ruleA] fsA ([] ++ [.warning "nosuch"]) :=
  c4_missing_source_warns_and_continues noFaults litCompile
    ⟨"r0", "nosuch", ".pdf", "out"⟩ [ruleA] fsA [] (by decide)

/-- C5: per-file failure isolation inside one rule (main.rs lines
89-113): with two matching regular files `a` and `b` in the source
folder, where relocating `a` fails at the copy and `b` relocates cleanly,
the rule still succeeds, records both outcomes in order, counts one move,
and in the final state `b` sits in the destination while `a` is still in
the source folder. -/
theorem c5_per_file_failure_isolated
    (flt : Faults) (compile : String → Except String (String → Bool)) (m : String → Bool)
    (rname pat srcF dstF a b : String) (ca cb : Nat) (e : String)
    (hsd : srcF ≠ dstF) (hab : a ≠ b)
    (hcomp : compile pat = .ok m)
    (hma : m a = true) (hmb : m b = true)
    (hrd : flt.readDirErr srcF = none)
    (hea : flt.entryErr srcF a = none) (heb : flt.entryErr srcF b = none)
    (hta : flt.ftypeErr srcF a = none) (htb : flt.ftypeErr srcF b = none)
    (hca : flt.copyErr (srcF, a) (dstF, a) = some e)
    (hcb : flt.copyErr (srcF, b) (dstF, b) = none)
    (hrb : flt.removeErr (srcF, b) = none) :
    runRule flt compile ⟨rname, srcF, pat, dstF⟩
      ⟨[srcF, dstF], [((srcF, a), ca), ((srcF, b), cb)], []⟩ =
    .ok (⟨[srcF, dstF], [((dstF, b), cb), ((srcF, a), ca)], []⟩,
      [.copyFailed (srcF, a) e, .moveOk (srcF, b) (dstF, b),
        .ruleSummary rname 1]) := by
  have hba : (b == a) = false := beq_eq_false_iff_ne.mpr (Ne.symm hab)
  have hsba : (((srcF, b) : Loc) == (srcF, a)) = false :=
    beq_eq_false_iff_ne.mpr (by simp [Prod.mk.injEq, Ne.symm hab])
  have hsad : (((srcF, a) : Loc) == (dstF, b)) = false :=
    beq_eq_false_iff_ne.mpr (by simp [Prod.mk.injEq, hsd])
  have hsbd : (((srcF, b) : Loc) == (dstF, b)) = false :=
    beq_eq_false_iff_ne.mpr (by simp [Prod.mk.injEq, hsd])
  have hdbs : (((dstF, b) : Loc) == (srcF, b)) = false :=
    beq_eq_false_iff_ne.mpr (by simp [Prod.mk.injEq, Ne.symm hsd])
  have hsas : (((srcF, a) : Loc) == (srcF, b)) = false :=
    beq_eq_false_iff_ne.mpr (by simp [Prod.mk.injEq, hab])
  simp [runRule, FS.pathExists, FS.entriesOf, processEntries, relocateStep,
    FS.copyFile, FS.removeFile, ruleMatches, isMoveOk, List.lookup, bne,
    hcomp, hrd, hea, heb, hta, htb, hca, hcb, hrb, hma, hmb,
    hba, hsba, hsad, hsbd, hdbs, hsas]

/-- C5 witness: `a.pdf` fails at the copy, `b.pdf` moves; both outcomes
recorded, one move counted, `b.pdf` relocated and `a.pdf` still present. -/
theorem c5_per_file_failure_isolated_witness :
    runRule c5Faults litCompile ⟨"pdfs", "in", ".pdf", "out"⟩
      ⟨["in", "out"], [(("in", "a.pdf"), 7), (("in", "b.pdf"), 8)], []⟩ =
    .ok (⟨["in", "out"], [(("out", "b.pdf"), 8), (("in", "a.pdf"), 7)], []⟩,
      [.copyFailed ("in", "a.pdf") "permission denied",
        .moveOk ("in", "b.pdf") ("out", "b.pdf"),
        .ruleSummary "pdfs" 1]) :=
  c5_per_file_failure_isolated c5Faults litCompile (litIsMatch ".pdf")
    "pdfs" ".pdf" "in" "out" "a.pdf" "b.pdf" 7 8 "permission denied"
    (by decide) (by decide) rfl (by decide) (by decide)
    rfl rfl rfl rfl rfl rfl rfl rfl

/-- C6: the copy-then-delete block (main.rs lines 89-113): a failed copy
leaves the filesystem — in particular the source file — untouched and
records a copy failure; a successful copy followed by a failed delete
records the distinct partial-relocation outcome, in which state the
destination holds the copied contents and the source file still exists
(a duplicate). -/
theorem c6_copy_then_delete_semantics (flt : Faults) (fs : FS) (src dst : Loc) (c : Nat) :
    (∀ e, flt.copyErr src dst = some e →
      relocateStep flt fs src dst = (fs, .copyFailed src e)) ∧
    (flt.copyErr src dst = none → fs.files.lookup src = some c →
      ∀ e2, flt.removeErr src = some e2 →
        (relocateStep flt fs src dst).2 = .removeFailed src e2 ∧
        (relocateStep flt fs src dst).1.files.lookup dst = some c ∧
        (relocateStep flt fs src dst).1.files.lookup src = some c) ∧
    (∀ s e1 s2 e2, Outcome.removeFailed s e1 ≠ Outcome.copyFailed s2 e2) := by
  refine ⟨?_, ?_, ?_⟩
  · intro e hc
    simp [relocateStep, FS.copyFile, hc]
  · intro hc hlk e2 hrm
    have hcopy : fs.copyFile flt src dst =
        .ok { fs with files := (dst, c) :: fs.files.filter (fun f => f.1 != dst) } := by
      simp [FS.copyFile, hc, hlk]
    have hstep : relocateStep flt fs src dst =
        ({ fs with files := (dst, c) :: fs.files.filter (fun f => f.1 != dst) },
          .removeFailed src e2) := by
      simp [relocateStep, hcopy, FS.removeFile, hrm]
    rw [hstep]
    refine ⟨rfl, by simp [List.lookup], ?_⟩
    by_cases hsd : src = dst
    · subst hsd
      simp [List.lookup]
    · have hs : (src == dst) = false := by simpa using hsd
      simp only [List.lookup, hs]
      rw [lookup_filter_ne src dst hsd]
      exact hlk
  · intro s e1 s2 e2
    simp

/-- C6 witness: concrete copy failure (filesystem unchanged) and
concrete post-copy delete failure (duplicate: both files hold the copied
contents). -/
theorem c6_copy_then_delete_semantics_witness :
    relocateStep xdevFaults fsA ("in", "a.pdf") ("out", "a.pdf") =
      (fsA, .copyFailed ("in", "a.pdf") "cross-device link") ∧
    ((relocateStep rmFaults fsA ("in", "a.pdf") ("out", "a.pdf")).2 =
        .removeFailed ("in", "a.pdf") "access denied" ∧
      (relocateStep rmFaults fsA ("in", "a.pdf") ("out", "a.pdf")).1.files.lookup
        ("out", "a.pdf") = some 7 ∧
      (relocateStep rmFaults fsA ("in", "a.pdf") ("out", "a.pdf")).1.files.lookup
        ("in", "a.pdf") = some 7) :=
  ⟨(c6_copy_then_delete_semantics xdevFaults fsA ("in", "a.pdf") ("out", "a.pdf") 7).1
      "cross-device link" rfl,
   (c6_copy_then_delete_semantics rmFaults fsA ("in", "a.pdf") ("out", "a.pdf") 7).2.1
      rfl (by decide) "access denied" rfl⟩

/-- C7: enumeration failures are fatal to the whole run (main.rs lines
73-80, `?` operator): if opening the source folder for reading fails, or
reading some directory entry fails, or obtaining some entry's file type
fails — even after earlier entries were processed fine — then
`organize_files` returns that error: the remaining entries, the rule's
summary and every later rule are all dropped. -/
theorem c7_enumeration_errors_fatal (flt : Faults)
    (compile : String → Except String (String → Bool)) (m : String → Bool)
    (r : OrganizeRule) (rs : List OrganizeRule) (fs : FS)
    (hsrc : fs.pathExists r.source_folder = true)
    (hdst : fs.pathExists r.destination_folder = true)
    (hcomp : compile r.pattern = .ok m) :
    (∀ e, flt.readDirErr r.source_folder = some e →
      organize_files flt compile ⟨r :: rs⟩ fs = .error e) ∧
    (∀ xs e0 ys fs1 mv1 acc1 msg,
      flt.readDirErr r.source_folder = none →
      fs.entriesOf r.source_folder = xs ++ e0 :: ys →
      processEntries flt m r.source_folder r.destination_folder xs fs 0 [] =
        .ok (fs1, mv1, acc1) →
      flt.entryErr r.source_folder e0.fname = some msg →
      organize_files flt compile ⟨r :: rs⟩ fs = .error msg) ∧
    (∀ xs e0 ys fs1 mv1 acc1 msg,
      flt.readDirErr r.source_folder = none →
      fs.entriesOf r.source_folder = xs ++ e0 :: ys →
      processEntries flt m r.source_folder r.destination_folder xs fs 0 [] =
        .ok (fs1, mv1, acc1) →
      flt.entryErr r.source_folder e0.fname = none →
      flt.ftypeErr r.source_folder e0.fname = some msg →
      organize_files flt compile ⟨r :: rs⟩ fs = .error msg) := by
  refine ⟨?_, ?_, ?_⟩
  · intro e he
    have hr : runRule flt compile r fs = .error e := by
      simp [runRule, hsrc, hdst, hcomp, he]
    simp [organize_files, runRules, hr]
  · intro xs e0 ys fs1 mv1 acc1 msg hrd hsplit hxs hee
    have hpe : processEntries flt m r.source_folder r.destination_folder
        (fs.entriesOf r.source_folder) fs 0 [] = .error msg := by
      rw [hsplit, processEntries_append, hxs]
      simp [processEntries, hee]
    have hr : runRule flt compile r fs = .error msg := by
      simp [runRule, hsrc, hdst, hcomp, hrd, hpe]
    simp [organize_files, runRules, hr]
  · intro xs e0 ys fs1 mv1 acc1 msg hrd hsplit hxs hee hte
    have hpe : processEntries flt m r.source_folder r.destination_folder
        (fs.entriesOf r.source_folder) fs 0 [] = .error msg := by
      rw [hsplit, processEntries_append, hxs]
      simp [processEntries, hee, hte]
    have hr : runRule flt compile r fs = .error msg := by
      simp [runRule, hsrc, hdst, hcomp, hrd, hpe]
    simp [organize_files, runRules, hr]

/-- C7 witness: each of the three enumeration failures, concretely; in
the second and third runs the first entry `a.pdf` was already processed
and the whole run still errors. -/
theorem c7_enumeration_errors_fatal_witness :
    organize_files rdFaults litCompile ⟨[ruleA, ruleA]⟩ fsA = .error "read denied" ∧
    organize_files enFaults litCompile ⟨[ruleA, ruleA]⟩ fsA = .error "entry lost" ∧
    organize_files ftFaults litCompile ⟨[ruleA, ruleA]⟩ fsA = .error "ftype lost" :=
  ⟨(c7_enumeration_errors_fatal rdFaults litCompile (litIsMatch ".pdf") ruleA [ruleA] fsA
      (by decide) (by decide) rfl).1 "read denied" rfl,
   (c7_enumeration_errors_fatal enFaults litCompile (litIsMatch ".pdf") ruleA [ruleA] fsA
      (by decide) (by decide) rfl).2.1 [⟨"a.pdf", true⟩] ⟨"b.txt", true⟩ []
      ⟨["in", "out"], [(("out", "a.pdf"), 7), (("in", "b.txt"), 8)], []⟩ 1
      [.moveOk ("in", "a.pdf") ("out", "a.pdf")] "entry lost"
      rfl (by decide) (by decide) rfl,
   (c7_enumeration_errors_fatal ftFaults litCompile (litIsMatch ".pdf") ruleA [ruleA] fsA
      (by decide) (by decide) rfl).2.2 [⟨"a.pdf", true⟩] ⟨"b.txt", true⟩ []
      ⟨["in", "out"], [(("out", "a.pdf"), 7), (("in", "b.txt"), 8)], []⟩ 1
      [.moveOk ("in", "a.pdf") ("out", "a.pdf")] "ftype lost"
      rfl (by decide) (by decide) rfl rfl⟩

/-- C8: which entries receive a file action is a pure function of the
compiled pattern and the entry's file name alone: in every successful
entry loop the action sources' names are exactly the names of the
matching regular entries, independently of the folder paths, the
filesystem state and the fault oracle; and the matcher semantics is the
unanchored substring search of `Regex::is_match`, so the pattern
`report` matches `my_report_2024.pdf` without being the whole name. -/
theorem c8_matching_is_pure_unanchored_search :
    (∀ (flt : Faults) (m : String → Bool) (srcF dstF : String) (es : List Entry)
      (fs fs2 : FS) (mv2 : Nat) (outs : List Outcome),
      processEntries flt m srcF dstF es fs 0 [] = .ok (fs2, mv2, outs) →
      (outs.filterMap actionSrc).map Prod.snd =
        (es.filter (ruleMatches m)).map Entry.fname) ∧
    litIsMatch "report" "my_report_2024.pdf" = true ∧
    "report" ≠ "my_report_2024.pdf" := by
  refine ⟨?_, by decide, by decide⟩
  intro flt m srcF dstF es fs fs2 mv2 outs h
  obtain ⟨acts, hacts, hsrcs, hfa, hmk, hmv⟩ :=
    processEntries_ok_spec flt m srcF dstF es fs 0 [] fs2 mv2 outs h
  have hoa : outs = acts := by simpa using hacts
  subst hoa
  rw [hsrcs, List.map_map]
  rfl

/-- C8 witness: the loop over entries `a.pdf` and `b.txt` under the
matcher for `.pdf` acts on exactly the name `a.pdf`. -/
theorem c8_matching_is_pure_unanchored_search_witness :
    ([Outcome.moveOk ("in", "a.pdf") ("out", "a.pdf")].filterMap actionSrc).map Prod.snd =
      (([⟨"a.pdf", true⟩, ⟨"b.txt", true⟩] : List Entry).filter
        (ruleMatches (litIsMatch ".pdf"))).map Entry.fname :=
  c8_matching_is_pure_unanchored_search.1 noFaults (litIsMatch ".pdf") "in" "out"
    [⟨"a.pdf", true⟩, ⟨"b.txt", true⟩] fsA
    ⟨["in", "out"], [(("out", "a.pdf"), 7), (("in", "b.txt"), 8)], []⟩ 1
    [Outcome.moveOk ("in", "a.pdf") ("out", "a.pdf")] (by decide)

/-- C9: an entry that is not a regular file, or whose name the pattern
does not match, is skipped entirely (main.rs lines 80-86): processing it
yields no file action and leaves the filesystem state, the moved count
and the accumulated results exactly as they were. -/
theorem c9_unmatched_and_nonregular_untouched (flt : Faults) (m : String → Bool)
    (srcF dstF : String) (e : Entry) (rest : List Entry) (fs : FS)
    (mv : Nat) (acc : List Outcome)
    (hnm : ruleMatches m e = false)
    (hee : flt.entryErr srcF e.fname = none)
    (hte : flt.ftypeErr srcF e.fname = none) :
    processEntries flt m srcF dstF (e :: rest) fs mv acc =
      processEntries flt m srcF dstF rest fs mv acc := by
  simp [processEntries, hee, hte, hnm]

/-- C9 witness: a regular file whose name does not match, and a
non-regular entry whose name does match, are both skipped. -/
theorem c9_unmatched_and_nonregular_untouched_witness :
    (processEntries noFaults (litIsMatch ".pdf") "in" "out"
        [⟨"b.txt", true⟩] fsA 0 [] =
      processEntries noFaults (litIsMatch ".pdf") "in" "out" [] fsA 0 []) ∧
    (processEntries noFaults (litIsMatch ".pdf") "in" "out"
        [⟨"archive.pdf", false⟩] fsA 0 [] =
      processEntries noFaults (litIsMatch ".pdf") "in" "out" [] fsA 0 []) :=
  ⟨c9_unmatched_and_nonregular_untouched noFaults (litIsMatch ".pdf") "in" "out"
      ⟨"b.txt", true⟩ [] fsA 0 [] (by decide) rfl rfl,
   c9_unmatched_and_nonregular_untouched noFaults (litIsMatch ".pdf") "in" "out"
      ⟨"archive.pdf", false⟩ [] fsA 0 [] (by decide) rfl rfl⟩

/-- C10: relocation preserves the file name: every successful move a rule
records writes to exactly the rule's destination folder joined with the
source file's own name (main.rs line 88) — no renaming, no collision
avoidance — and `fs::copy` overwrites a file already present at the
destination with the source's contents. -/
theorem c10_destination_is_folder_join_name (flt : Faults)
    (compile : String → Except String (String → Bool))
    (r : OrganizeRule) (fs fs2 : FS) (outs : List Outcome) (s d : Loc)
    (hsrc : fs.pathExists r.source_folder = true)
    (h : runRule flt compile r fs = .ok (fs2, outs)) :
    (Outcome.moveOk s d ∈ outs →
      s = (r.source_folder, s.2) ∧ d = (r.destination_folder, s.2)) ∧
    (∀ (fsx : FS) (c cOld : Nat) (src dst : Loc),
      flt.copyErr src dst = none →
      fsx.files.lookup src = some c →
      fsx.files.lookup dst = some cOld →
      ∃ fsy, fsx.copyFile flt src dst = .ok fsy ∧
        fsy.files.lookup dst = some c) := by
  constructor
  · intro hmem
    obtain ⟨fs1, m, mv, acts, hcomp, hf, ho, hpe, houts⟩ :=
      runRule_ok_inv flt compile r fs fs2 outs hsrc h
    obtain ⟨acts2, hacts2, hsrcs, hfa, hmk, hmv⟩ :=
      processEntries_ok_spec flt m _ _ _ _ _ _ _ _ _ hpe
    have hae : acts = acts2 := by simpa using hacts2
    subst hae
    subst houts
    rcases List.mem_append.mp hmem with hin | hin
    · obtain ⟨h1, h2⟩ := hmk s d hin
      exact ⟨h1, h2⟩
    · simp at hin
  · intro fsx c cOld src dst hc hlks hlkd
    refine ⟨{ fsx with files := (dst, c) :: fsx.files.filter (fun f => f.1 != dst) }, ?_, ?_⟩
    · simp [FS.copyFile, hc, hlks]
    · simp [List.lookup]

/-- C10 witness: running `ruleA` over `fsB` moves `a.pdf` to exactly
`("out", "a.pdf")`, and the copying of `a.pdf` onto the existing
destination file replaces its contents 9 with the source's contents 7. -/
theorem c10_destination_is_folder_join_name_witness :
    ((("in", "a.pdf") : Loc) = ("in", "a.pdf") ∧
      (("out", "a.pdf") : Loc) = ("out", "a.pdf")) ∧
    (∃ fsy, FS.copyFile noFaults fsB ("in", "a.pdf") ("out", "a.pdf") = .ok fsy ∧
      fsy.files.lookup ("out", "a.pdf") = some 7) :=
  ⟨(c10_destination_is_folder_join_name noFaults litCompile ruleA fsB
      ⟨["in", "out"], [(("out", "a.pdf"), 7)], []⟩
      [Outcome.moveOk ("in", "a.pdf") ("out", "a.pdf"), Outcome.ruleSummary "pdfs" 1]
      ("in", "a.pdf") ("out", "a.pdf") (by decide) (by decide)).1 (by decide),
   (c10_destination_is_folder_join_name noFaults litCompile ruleA fsB
      ⟨["in", "out"], [(("out", "a.pdf"), 7)], []⟩
      [Outcome.moveOk ("in", "a.pdf") ("out", "a.pdf"), Outcome.ruleSummary "pdfs" 1]
      ("in", "a.pdf") ("out", "a.pdf") (by decide) (by decide)).2
      fsB 7 9 ("in", "a.pdf") ("out", "a.pdf") rfl (by decide) (by decide)⟩
